import Mathlib

/-!
Shallow embedding of `db.js` (VKM Associates persistent storage layer).

The storage engine (IndexedDB object stores keyed by a `keyPath`) is
modelled as association lists with a `put` that replaces the record
holding the same key, or appends a new record.  The injected primitives
`Date.now()` and `crypto.randomUUID()` are explicit parameters
(`now : Nat`, `newId : String`).  The `localStorage` session flag is a
`Bool` field of the world state.  JavaScript falsiness of strings
(`"" || d` picks `d`) is modelled explicitly where the source relies
on it.
-/

namespace VKM

/-- A product record as stored in the `products` object store. -/
structure Product where
  id : String
  name : String
  category : String
  price : Int
  stock : Int
  imageMediaId : Option String
  description : String
  createdAt : Nat
  updatedAt : Nat
deriving Repr, DecidableEq

/-- Caller-supplied input to `addProduct`; `none` models an absent
(`undefined`) field. -/
structure ProductInput where
  id : Option String := none
  name : String := ""
  category : Option String := none
  price : Option Int := none
  stock : Option Int := none
  imageMediaId : Option String := none
  description : Option String := none
deriving Repr, DecidableEq

/-- Partial updates passed to `updateProduct`; `none` models an absent
field (the spread `{...existing, ...updates}` keeps the existing value).
A supplied `updatedAt` would be overwritten by the trailing
`updatedAt: Date.now()` in the source, so it is not modelled. -/
structure ProductUpdates where
  id : Option String := none
  name : Option String := none
  category : Option String := none
  price : Option Int := none
  stock : Option Int := none
  imageMediaId : Option (Option String) := none
  description : Option String := none
  createdAt : Option Nat := none
deriving Repr, DecidableEq

/-- A file handed to `saveMedia` / `setLogo` (name, MIME type, size and
an opaque content tag standing for the binary payload). -/
structure JsFile where
  name : String := ""
  type : String := ""
  size : Nat := 0
  content : Nat := 0
deriving Repr, DecidableEq

/-- A record of the `media` object store. -/
structure MediaRecord where
  id : String
  name : String
  type : String
  size : Nat
  blob : JsFile
  createdAt : Nat
deriving Repr, DecidableEq

/-- The value seeded under the `"business"` setting.  The float
coordinates of the source are held in thousandths. -/
structure BusinessInfo where
  name : String
  owner : String
  address : String
  latMilli : Int
  lngMilli : Int
deriving Repr, DecidableEq

/-- Values stored in the `settings` object store: the `logoMediaId`
setting holds a string id, the `business` setting holds a record. -/
inductive SettingValue where
  | str : String → SettingValue
  | business : BusinessInfo → SettingValue
deriving Repr, DecidableEq

/-- A record of the `users` object store. -/
structure User where
  username : String
  password : String
  role : String
  createdAt : Nat
deriving Repr, DecidableEq

/-- The four object stores of the IndexedDB database `vkmDB`. -/
structure DB where
  products : List Product
  media : List MediaRecord
  settings : List (String × SettingValue)
  users : List User
deriving Repr, DecidableEq

/-- Whole-world state: whether the on-disk database has ever been opened
(schema created — the version gate of `onupgradeneeded`), whether the
module-level `db` handle is cached, the database contents, and the
`localStorage` flag `vkm_owner_logged_in`. -/
structure World where
  dbOpened : Bool
  handle : Bool
  db : DB
  session : Bool
deriving Repr, DecidableEq

/-- `store.put(record)`: replace the record with the same key if one
exists, otherwise add the record. -/
def putBy (key : α → String) : List α → α → List α
  | [], r => [r]
  | x :: xs, r => if key x = key r then r :: xs else x :: putBy key xs r

/-- `store.get(k)` for a store keyed by `key`. -/
def getBy (key : α → String) (l : List α) (k : String) : Option α :=
  l.find? (fun x => key x == k)

/-- JavaScript `v || dflt` for a possibly-absent string: the empty
string is falsy. -/
def jsOr (v : Option String) (dflt : String) : String :=
  match v with
  | some s => if s = "" then dflt else s
  | none => dflt

/-- JavaScript `v || null` for a possibly-absent string. -/
def jsOrNull (v : Option String) : Option String :=
  match v with
  | some s => if s = "" then none else some s
  | none => none

/-! ## Products -/

/-- The record built by `addProduct` from input `p`, fresh id `newId`
(used only when `p.id` is falsy) and clock reading `now`. -/
def mkProduct (newId : String) (now : Nat) (p : ProductInput) : Product :=
  { id := jsOr p.id newId
    name := p.name
    category := jsOr p.category "Stationery"
    price := p.price.getD 0
    stock := p.stock.getD 0
    imageMediaId := jsOrNull p.imageMediaId
    description := p.description.getD ""
    createdAt := now
    updatedAt := now }

/-- `addProduct(p)`: build the record and `put` it; returns the stored
record and the new `products` store. -/
def addProduct (newId : String) (now : Nat) (p : ProductInput)
    (store : List Product) : Product × List Product :=
  let product := mkProduct newId now p
  (product, putBy Product.id store product)

/-- `products.get(id)`. -/
def findProduct (store : List Product) (id : String) : Option Product :=
  getBy Product.id store id

/-- The spread `{...existing, ...updates, updatedAt: Date.now()}`. -/
def applyUpdates (existing : Product) (u : ProductUpdates) (now : Nat) :
    Product :=
  { id := u.id.getD existing.id
    name := u.name.getD existing.name
    category := u.category.getD existing.category
    price := u.price.getD existing.price
    stock := u.stock.getD existing.stock
    imageMediaId := u.imageMediaId.getD existing.imageMediaId
    description := u.description.getD existing.description
    createdAt := u.createdAt.getD existing.createdAt
    updatedAt := now }

/-- Failure channel of the store: `updateProduct` throws
`Error('Product not found')` on a missing id. -/
inductive DbError where
  | notFound
deriving Repr, DecidableEq

/-- `updateProduct(id, updates)`: get, throw if absent, merge, stamp
`updatedAt`, put.  Returns the merged record and the new store. -/
def updateProduct (id : String) (u : ProductUpdates) (now : Nat)
    (store : List Product) : Except DbError (Product × List Product) :=
  match findProduct store id with
  | none => Except.error DbError.notFound
  | some existing =>
      let next := applyUpdates existing u now
      Except.ok (next, putBy Product.id store next)

/-- The `products` store as observed after an `updateProduct` call (a
thrown `NotFoundError` happens before any `put`, leaving it unchanged). -/
def updateProductRun (id : String) (u : ProductUpdates) (now : Nat)
    (store : List Product) : List Product :=
  match updateProduct id u now store with
  | Except.error _ => store
  | Except.ok (_, s) => s

/-- `deleteProduct(id)`: `products.delete(id)` removes every record
under key `id` (at most one, keys being unique) and never throws. -/
def deleteProduct (id : String) (store : List Product) : List Product :=
  store.filter (fun p => p.id != id)

/-- The comparator `(a, b) => b.createdAt - a.createdAt`: `a` may come
before `b` exactly when `b.createdAt ≤ a.createdAt`. -/
def prodGe (a b : Product) : Prop := b.createdAt ≤ a.createdAt

instance : DecidableRel prodGe :=
  fun a b => inferInstanceAs (Decidable (b.createdAt ≤ a.createdAt))

instance : IsTotal Product prodGe :=
  ⟨fun a b => (Nat.le_total b.createdAt a.createdAt).symm.symm⟩

instance : IsTrans Product prodGe :=
  ⟨fun _ _ _ hab hbc => Nat.le_trans hbc hab⟩

/-- The filter predicate `!filter.category || p.category ===
filter.category`; an empty-string category is falsy, disabling the
filter. -/
def categoryPred (filt : Option String) (p : Product) : Bool :=
  match filt with
  | none => true
  | some c => if c = "" then true else p.category == c

/-- `listProducts(filter)`: `getAll`, filter by category, sort by
`createdAt` descending (JavaScript `Array.prototype.sort` is stable;
`List.insertionSort` with `prodGe` is the stable descending sort). -/
def listProducts (filt : Option String) (store : List Product) :
    List Product :=
  List.insertionSort prodGe (store.filter (categoryPred filt))

/-! ## Settings, media, users, session -/

/-- `settings.get(k)` projected to the stored value. -/
def lookupSetting (settings : List (String × SettingValue)) (k : String) :
    Option SettingValue :=
  (getBy Prod.fst settings k).map Prod.snd

/-- Truthiness of a setting value (`row?.value || null` in
`getBusinessInfo`): only the empty string is falsy. -/
def svTruthy : SettingValue → Bool
  | SettingValue.str s => s != ""
  | SettingValue.business _ => true

/-- `setBusinessInfo(info)`. -/
def setBusinessInfo (info : SettingValue) (db : DB) : DB :=
  { db with settings := putBy Prod.fst db.settings ("business", info) }

/-- `getBusinessInfo()`: `row?.value || null`. -/
def getBusinessInfo (db : DB) : Option SettingValue :=
  match lookupSetting db.settings "business" with
  | none => none
  | some v => if svTruthy v then some v else none

/-- `saveMedia(file)`: store a `MediaRecord` under the fresh id and
return the id. -/
def saveMedia (newId : String) (now : Nat) (file : JsFile) (db : DB) :
    String × DB :=
  (newId,
    { db with
        media := putBy MediaRecord.id db.media
          { id := newId, name := file.name, type := file.type
            size := file.size, blob := file, createdAt := now } })

/-- `getMediaUrl(id)`: `null` when the record is absent, otherwise a
transient handle to the blob (`URL.createObjectURL(rec.blob)`), modelled
as the blob itself. -/
def getMediaUrl (id : String) (db : DB) : Option JsFile :=
  (getBy MediaRecord.id db.media id).map MediaRecord.blob

/-- `setLogo(file)`: `saveMedia` then point the `logoMediaId` setting at
the new id. -/
def setLogo (newId : String) (now : Nat) (file : JsFile) (db : DB) :
    String × DB :=
  let r := saveMedia newId now file db
  (r.1,
    { r.2 with
        settings := putBy Prod.fst r.2.settings
          ("logoMediaId", SettingValue.str r.1) })

/-- `getLogoUrl()`: `null` when the `logoMediaId` setting is unset,
otherwise delegate to `getMediaUrl`.  (A non-string value under that key
is not a valid media key and yields no record.) -/
def getLogoUrl (db : DB) : Option JsFile :=
  match lookupSetting db.settings "logoMediaId" with
  | some (SettingValue.str mid) => getMediaUrl mid db
  | some (SettingValue.business _) => none
  | none => none

/-- `users.get(username)`. -/
def findUser (users : List User) (username : String) : Option User :=
  getBy User.username users username

/-- The boolean `ok` computed by `loginOwner`:
`Boolean(user && user.password === password && user.role === 'owner')`. -/
def loginOk (username password : String) (w : World) : Bool :=
  match findUser w.db.users username with
  | some u => u.password == password && u.role == "owner"
  | none => false

/-- `loginOwner(username, password)`: returns the boolean result and the
world after the call (the `vkm_owner_logged_in` flag is set only on
success). -/
def loginOwner (username password : String) (w : World) : Bool × World :=
  (loginOk username password w,
   if loginOk username password w then { w with session := true } else w)

/-- `logoutOwner()`: removes the flag unconditionally. -/
def logoutOwner (w : World) : World := { w with session := false }

/-- `isOwner()`: pure read of the flag. -/
def isOwner (w : World) : Bool := w.session

/-! ## Lifecycle -/

/-- The owner credential row seeded by `onupgradeneeded`. -/
def seedOwner (now : Nat) : User :=
  { username := "VKM2009", password := "VKM1998", role := "owner"
    createdAt := now }

/-- The default BusinessInfo record seeded by `init`. -/
def defaultBusiness : BusinessInfo :=
  { name := "VKM Associates", owner := "Manorma Sharma"
    address := "Siwala Adalhat, Mirzapur, Uttar Pradesh"
    latMilli := 25083, lngMilli := 82777 }

/-- `openDB()`: on the first-ever open the version gate runs
`onupgradeneeded`, which creates the stores and seeds the owner account;
afterwards it only caches the handle. -/
def openDB (now : Nat) (w : World) : World :=
  if w.dbOpened then { w with handle := true }
  else
    { w with
        dbOpened := true, handle := true
        db := { w.db with
                  users := putBy User.username w.db.users (seedOwner now) } }

/-- The second half of `init()`: seed the `"business"` setting when
`getBusinessInfo()` reports it missing. -/
def initSeed (w1 : World) : World :=
  match getBusinessInfo w1.db with
  | some _ => w1
  | none =>
      { w1 with
          db := setBusinessInfo (SettingValue.business defaultBusiness) w1.db }

/-- `init()`: open the database unless the handle is cached
(`if (!db) await openDB()`), then run the seed check. -/
def init (now : Nat) (w : World) : World :=
  initSeed (if w.handle then w else openDB now w)

/-! ## Generic lemmas about the keyed stores -/

theorem getBy_putBy_self (key : α → String) (l : List α) (r : α) (k : String)
    (hk : key r = k) : getBy key (putBy key l r) k = some r := by
  induction l with
  | nil => simp [putBy, getBy, List.find?, hk]
  | cons x xs ih =>
      by_cases h : key x = key r
      · simp [putBy, h, getBy, List.find?, hk]
      · have hx : (key x == k) = false := by
          simp [hk ▸ h]
        simp only [putBy, if_neg h]
        simpa [getBy, List.find?, hx] using ih

theorem map_putBy (key : α → String) (l : List α) (r : α) :
    (putBy key l r).map key =
      if key r ∈ l.map key then l.map key else l.map key ++ [key r] := by
  induction l with
  | nil => simp [putBy]
  | cons x xs ih =>
      by_cases h : key x = key r
      · simp [putBy, h]
      · simp only [putBy, if_neg h, List.map_cons, ih]
        by_cases hm : key r ∈ xs.map key
        · simp [hm, Ne.symm h]
        · simp [hm, Ne.symm h]

theorem nodup_map_putBy (key : α → String) (l : List α) (r : α)
    (h : (l.map key).Nodup) : ((putBy key l r).map key).Nodup := by
  rw [map_putBy]
  by_cases hm : key r ∈ l.map key
  · simpa [hm] using h
  · simp only [hm, if_false]
    simpa using h.concat hm

theorem length_putBy_of_mem (key : α → String) (l : List α) (r : α)
    (h : key r ∈ l.map key) : (putBy key l r).length = l.length := by
  induction l with
  | nil => simp at h
  | cons x xs ih =>
      by_cases hx : key x = key r
      · simp [putBy, hx]
      · have hm : key r ∈ xs.map key := by
          rcases List.mem_map.mp h with ⟨a, ha, hk⟩
          rcases List.mem_cons.mp ha with ha | ha
          · exact absurd (ha ▸ hk) hx
          · exact List.mem_map.mpr ⟨a, ha, hk⟩
        simp [putBy, hx, ih hm]

theorem count_putBy_self [DecidableEq α] (key : α → String) (l : List α)
    (r : α) (h : (l.map key).Nodup) : (putBy key l r).count r = 1 := by
  induction l with
  | nil => simp [putBy]
  | cons x xs ih =>
      have hh : key x ∉ xs.map key ∧ (xs.map key).Nodup := by
        rw [List.map_cons, List.nodup_cons] at h
        exact h
      by_cases hx : key x = key r
      · have hnot : r ∉ xs := by
          intro hr
          exact hh.1 (by rw [hx]; exact List.mem_map.mpr ⟨r, hr, rfl⟩)
        simp [putBy, hx, List.count_cons, List.count_eq_zero.mpr hnot]
      · have hne : x ≠ r := fun he => hx (he ▸ rfl)
        simp [putBy, hx, List.count_cons, Ne.symm hne, ih hh.2]

/-! ## Stable sort lemmas -/

theorem orderedInsert_of_forall (r : Product) (m : List Product)
    (h : ∀ e ∈ m, prodGe r e) :
    List.orderedInsert prodGe r m = r :: m := by
  cases m with
  | nil => rfl
  | cons b l =>
      simp [List.orderedInsert, if_pos (h b (List.mem_cons_self b l))]

theorem filter_orderedInsert_neg (q : Product → Bool) (r : Product)
    (m : List Product) (hq : q r = false) :
    (List.orderedInsert prodGe r m).filter q = m.filter q := by
  induction m with
  | nil => simp [List.orderedInsert, hq]
  | cons b l ih =>
      by_cases hrb : prodGe r b
      · simp [List.orderedInsert, if_pos hrb, List.filter_cons, hq]
      · simp [List.orderedInsert, if_neg hrb, List.filter_cons, ih]

theorem filter_orderedInsert_pos (q : Product → Bool) (r : Product)
    (m : List Product) (hm : List.Sorted prodGe m) (hq : q r = true) :
    (List.orderedInsert prodGe r m).filter q =
      List.orderedInsert prodGe r (m.filter q) := by
  induction m with
  | nil => simp [List.orderedInsert, hq]
  | cons b l ih =>
      have hbl := (List.sorted_cons.mp hm).1
      have hl := (List.sorted_cons.mp hm).2
      by_cases hrb : prodGe r b
      · by_cases hb : q b = true
        · simp [List.orderedInsert, if_pos hrb, List.filter_cons, hq, hb]
        · have hb' : q b = false := by
            cases hqb : q b
            · rfl
            · exact absurd hqb hb
          have hall : ∀ e ∈ l.filter q, prodGe r e := by
            intro e he
            exact Nat.le_trans (hbl e (List.mem_of_mem_filter he)) hrb
          have h1 : List.filter q (r :: b :: l) = r :: List.filter q l := by
            simp [List.filter_cons, hq, hb']
          have h2 : List.filter q (b :: l) = List.filter q l := by
            simp [List.filter_cons, hb']
          rw [List.orderedInsert, if_pos hrb, h1, h2,
            orderedInsert_of_forall r (l.filter q) hall]
      · by_cases hb : q b = true
        · simp [List.orderedInsert, if_neg hrb, List.filter_cons, hq, hb,
            ih hl]
        · have hb' : q b = false := by
            cases hqb : q b
            · rfl
            · exact absurd hqb hb
          simp [List.orderedInsert, if_neg hrb, List.filter_cons, hb', ih hl]

theorem filter_insertionSort (q : Product → Bool) (l : List Product) :
    (List.insertionSort prodGe l).filter q =
      List.insertionSort prodGe (l.filter q) := by
  induction l with
  | nil => rfl
  | cons x xs ih =>
      by_cases hx : q x = true
      · rw [List.insertionSort,
          filter_orderedInsert_pos q x _ (List.sorted_insertionSort prodGe xs) hx,
          ih, List.filter_cons, hx]
        simp
      · have hx' : q x = false := by
          cases hqx : q x
          · rfl
          · exact absurd hqx hx
        rw [List.insertionSort, filter_orderedInsert_neg q x _ hx', ih,
          List.filter_cons, hx']
        simp

/-! ## Concrete fixtures -/

/-- A concrete stored product used in concrete instances. -/
def pEx : Product :=
  { id := "a", name := "Pen", category := "Stationery", price := 10
    stock := 2, imageMediaId := none, description := "", createdAt := 1
    updatedAt := 1 }

/-- The empty world before the database has ever been opened. -/
def world0 : World :=
  { dbOpened := false, handle := false
    db := { products := [], media := [], settings := [], users := [] }
    session := false }

/-- The empty world after a first `init` (stores created, owner and
business info seeded). -/
def world1 : World := init 0 world0

/-! ## Claim theorems -/

/-- C1: `loginOwner(username, password)` returns true and sets the
session flag (so `isOwner()` becomes true) exactly when a user record
with that username exists, its password equals the supplied password and
its role is `"owner"`; on any other input it returns false and leaves
the world — in particular the session flag — unchanged, and
`logoutOwner()` unconditionally clears the flag. -/
theorem loginOwner_spec (username password : String) (w : World) :
    ((loginOwner username password w).1 = true ↔
      ∃ user, findUser w.db.users username = some user ∧
        user.password = password ∧ user.role = "owner")
    ∧ ((loginOwner username password w).1 = true →
        isOwner (loginOwner username password w).2 = true)
    ∧ ((loginOwner username password w).1 = false →
        (loginOwner username password w).2 = w)
    ∧ isOwner (logoutOwner w) = false := by
  refine ⟨?_, ?_, ?_, rfl⟩
  · cases hf : findUser w.db.users username with
    | none => simp [loginOwner, loginOk, hf]
    | some u => simp [loginOwner, loginOk, hf]
  · intro h
    simp only [loginOwner] at h ⊢
    simp [h, isOwner]
  · intro h
    simp only [loginOwner] at h ⊢
    simp [h]

theorem loginOwner_spec_witness :
    isOwner (loginOwner "VKM2009" "VKM1998" world1).2 = true
    ∧ (loginOwner "VKM2009" "wrong" world1).2 = world1 :=
  ⟨(loginOwner_spec "VKM2009" "VKM1998" world1).2.1 (by decide),
   (loginOwner_spec "VKM2009" "wrong" world1).2.2.1 (by decide)⟩

/-- C3: `updateProduct` on an id absent from the products collection
fails with `NotFoundError` and performs no write: the collection
observed after the failed call is the one before it. -/
theorem updateProduct_missing (id : String) (u : ProductUpdates)
    (now : Nat) (store : List Product) (h : ∀ q ∈ store, q.id ≠ id) :
    updateProduct id u now store = Except.error DbError.notFound
    ∧ updateProductRun id u now store = store := by
  have hf : findProduct store id = none := by
    simp only [findProduct, getBy]
    rw [List.find?_eq_none]
    intro q hq
    simp [h q hq]
  exact ⟨by simp [updateProduct, hf],
    by simp [updateProductRun, updateProduct, hf]⟩

theorem updateProduct_missing_witness :
    updateProduct "zzz" {} 5 [pEx] = Except.error DbError.notFound
    ∧ updateProductRun "zzz" {} 5 [pEx] = [pEx] :=
  updateProduct_missing "zzz" {} 5 [pEx] (by decide)

/-- C7: `deleteProduct` is a total function (it never fails, present or
absent id) and is idempotent: deleting the same id twice yields the same
collection as deleting it once, and after the first call the id is
absent from `listProducts()`. -/
theorem deleteProduct_idempotent (id : String) (store : List Product) :
    deleteProduct id (deleteProduct id store) = deleteProduct id store
    ∧ ∀ q ∈ listProducts none (deleteProduct id store), q.id ≠ id := by
  constructor
  · show (deleteProduct id store).filter (fun p => p.id != id) =
      deleteProduct id store
    rw [List.filter_eq_self]
    intro a ha
    exact (List.mem_filter.mp ha).2
  · intro q hq
    have hq1 : q ∈ (deleteProduct id store).filter (categoryPred none) :=
      (List.mem_insertionSort prodGe).mp hq
    have hq2 : q ∈ deleteProduct id store := List.mem_of_mem_filter hq1
    have hq3 := (List.mem_filter.mp hq2).2
    simpa using hq3

theorem deleteProduct_idempotent_witness :
    deleteProduct "z" (deleteProduct "z" [pEx]) = deleteProduct "z" [pEx]
    ∧ pEx.id ≠ "z" :=
  ⟨(deleteProduct_idempotent "z" [pEx]).1,
   (deleteProduct_idempotent "z" [pEx]).2 pEx (by decide)⟩

/-! ## Lifecycle lemmas -/

theorem handle_openDB (now : Nat) (w : World) :
    (openDB now w).handle = true := by
  by_cases h : w.dbOpened <;> simp [openDB, h]

theorem initSeed_handle (w : World) : (initSeed w).handle = w.handle := by
  cases hb : getBusinessInfo w.db with
  | some v => simp [initSeed, hb]
  | none => simp [initSeed, hb]

theorem init_handle (now : Nat) (w : World) : (init now w).handle = true := by
  simp only [init]
  rw [initSeed_handle]
  by_cases h : w.handle
  · simp [h]
  · simp [h, handle_openDB]

theorem lookupSetting_setBusiness (db : DB) (v : SettingValue) :
    lookupSetting (setBusinessInfo v db).settings "business" = some v := by
  simp only [setBusinessInfo, lookupSetting]
  rw [getBy_putBy_self Prod.fst db.settings ("business", v) "business" rfl]
  rfl

theorem getBusinessInfo_initSeed_isSome (w : World) :
    (getBusinessInfo (initSeed w).db).isSome := by
  cases hb : getBusinessInfo w.db with
  | some v => simp [initSeed, hb]
  | none =>
      simp only [initSeed, hb]
      simp [getBusinessInfo, lookupSetting_setBusiness, svTruthy]

theorem initSeed_of_isSome (w : World)
    (h : (getBusinessInfo w.db).isSome) : initSeed w = w := by
  cases hb : getBusinessInfo w.db with
  | some v => simp [initSeed, hb]
  | none => rw [hb] at h; simp at h

/-- A concrete product input with no optional fields supplied. -/
def pIn0 : ProductInput := { name := "Pen" }

/-- A concrete product input whose supplied id collides with `pEx`. -/
def pInA : ProductInput := { id := some "a", name := "Pencil" }

/-- C2: `addProduct` fills the documented defaults for omitted fields,
assigns the fresh id when none is supplied, stamps `createdAt` and
`updatedAt` to the same value, and a subsequent `listProducts()`
contains exactly one record equal to the input plus the filled
defaults. -/
theorem addProduct_spec (newId : String) (now : Nat) (p : ProductInput)
    (store : List Product) (h : (store.map Product.id).Nodup) :
    (addProduct newId now p store).1 = mkProduct newId now p
    ∧ (addProduct newId now p store).1.createdAt
        = (addProduct newId now p store).1.updatedAt
    ∧ (p.id = none → (addProduct newId now p store).1.id = newId)
    ∧ (p.category = none →
        (addProduct newId now p store).1.category = "Stationery")
    ∧ (p.price = none → (addProduct newId now p store).1.price = 0)
    ∧ (p.stock = none → (addProduct newId now p store).1.stock = 0)
    ∧ (p.description = none →
        (addProduct newId now p store).1.description = "")
    ∧ (p.imageMediaId = none →
        (addProduct newId now p store).1.imageMediaId = none)
    ∧ (listProducts none (addProduct newId now p store).2).count
        (addProduct newId now p store).1 = 1 := by
  refine ⟨rfl, rfl, ?_, ?_, ?_, ?_, ?_, ?_, ?_⟩
  · intro hid; simp [addProduct, mkProduct, jsOr, hid]
  · intro hc; simp [addProduct, mkProduct, jsOr, hc]
  · intro hp; simp [addProduct, mkProduct, hp]
  · intro hs; simp [addProduct, mkProduct, hs]
  · intro hd; simp [addProduct, mkProduct, hd]
  · intro hi; simp [addProduct, mkProduct, jsOrNull, hi]
  · have hperm := List.perm_insertionSort prodGe
      (((addProduct newId now p store).2).filter (categoryPred none))
    have hfil : ((addProduct newId now p store).2).filter (categoryPred none)
        = (addProduct newId now p store).2 := by
      rw [List.filter_eq_self]; intro a _; rfl
    rw [listProducts, hperm.count_eq, hfil]
    exact count_putBy_self Product.id store (mkProduct newId now p) h

theorem addProduct_spec_witness :
    (addProduct "p1" 10 pIn0 []).1.id = "p1"
    ∧ (listProducts none (addProduct "p1" 10 pIn0 []).2).count
        (addProduct "p1" 10 pIn0 []).1 = 1 :=
  ⟨(addProduct_spec "p1" 10 pIn0 [] (by decide)).2.2.1 rfl,
   (addProduct_spec "p1" 10 pIn0 [] (by decide)).2.2.2.2.2.2.2.2⟩

/-- Updates supplying `id` and `createdAt`, as C4 quantifies over. -/
def uEx : ProductUpdates := { id := some "b", createdAt := some 99 }

/-- The record stored and returned by `updateProduct "a" uEx 5 [pEx]`. -/
def pExMerged : Product :=
  { id := "b", name := "Pen", category := "Stationery", price := 10
    stock := 2, imageMediaId := none, description := "", createdAt := 99
    updatedAt := 5 }

/-- C4 counterexample: with `partialUpdates = {id: "b", createdAt: 99}`
the spread `{...existing, ...updates}` lets the caller-supplied values
win, so the returned and stored record's `id` and `createdAt` differ
from the pre-existing record's (and, the key having changed, the `put`
lands beside the original record instead of over it). -/
theorem updateProduct_overwrite_counterexample :
    updateProduct "a" uEx 5 [pEx]
      = Except.ok (pExMerged, [pEx, pExMerged])
    ∧ pExMerged.id ≠ pEx.id ∧ pExMerged.createdAt ≠ pEx.createdAt :=
  ⟨rfl, by decide, by decide⟩

/-- C4 amended: `updateProduct` preserves `id` and `createdAt` provided
`partialUpdates` contains neither; when the caller supplies them, the
merge overwrites both. -/
theorem updateProduct_preserves_id_createdAt (id : String)
    (u : ProductUpdates) (now : Nat) (store : List Product) (q : Product)
    (hq : findProduct store id = some q) (hid : u.id = none)
    (hca : u.createdAt = none) :
    updateProduct id u now store
      = Except.ok (applyUpdates q u now,
          putBy Product.id store (applyUpdates q u now))
    ∧ (applyUpdates q u now).id = q.id
    ∧ (applyUpdates q u now).createdAt = q.createdAt := by
  refine ⟨by simp [updateProduct, hq], ?_, ?_⟩
  · simp [applyUpdates, hid]
  · simp [applyUpdates, hca]

theorem updateProduct_preserves_id_createdAt_witness :
    (applyUpdates pEx {} 5).id = pEx.id
    ∧ (applyUpdates pEx {} 5).createdAt = pEx.createdAt :=
  ⟨(updateProduct_preserves_id_createdAt "a" {} 5 [pEx] pEx rfl rfl rfl).2.1,
   (updateProduct_preserves_id_createdAt "a" {} 5 [pEx] pEx rfl rfl rfl).2.2⟩

/-- The partial update `{price: x}`. -/
def pricePatch (x : Int) : ProductUpdates := { price := some x }

/-- The record stored by `updateProduct "a" {price: 7} 1 [pEx]`. -/
def pExPriced : Product :=
  { id := "a", name := "Pen", category := "Stationery", price := 7
    stock := 2, imageMediaId := none, description := "", createdAt := 1
    updatedAt := 1 }

/-- C5 counterexample: `updateProduct` stamps `updatedAt` with the
clock reading of the call; when that reading equals the record's
`createdAt` (the clock has finite resolution), the stored record has
`updatedAt = createdAt`, not `updatedAt > createdAt`. -/
theorem updateProduct_updatedAt_counterexample :
    updateProduct "a" (pricePatch 7) 1 [pEx]
      = Except.ok (pExPriced, [pExPriced])
    ∧ ¬ pExPriced.createdAt < pExPriced.updatedAt :=
  ⟨rfl, by decide⟩

/-- C5 amended: for a stored product, `updateProduct(id, {price: x})`
stores and returns a record with `price = x`, every other field except
`updatedAt` unchanged, and `updatedAt` equal to the call's clock
reading — hence strictly above `createdAt` whenever the call happens
strictly after creation. -/
theorem updateProduct_price (id : String) (x : Int) (now : Nat)
    (store : List Product) (q : Product)
    (hq : findProduct store id = some q) :
    updateProduct id (pricePatch x) now store
      = Except.ok (applyUpdates q (pricePatch x) now,
          putBy Product.id store (applyUpdates q (pricePatch x) now))
    ∧ (applyUpdates q (pricePatch x) now).price = x
    ∧ (applyUpdates q (pricePatch x) now).id = q.id
    ∧ (applyUpdates q (pricePatch x) now).name = q.name
    ∧ (applyUpdates q (pricePatch x) now).category = q.category
    ∧ (applyUpdates q (pricePatch x) now).stock = q.stock
    ∧ (applyUpdates q (pricePatch x) now).imageMediaId = q.imageMediaId
    ∧ (applyUpdates q (pricePatch x) now).description = q.description
    ∧ (applyUpdates q (pricePatch x) now).createdAt = q.createdAt
    ∧ (applyUpdates q (pricePatch x) now).updatedAt = now
    ∧ findProduct
        (putBy Product.id store (applyUpdates q (pricePatch x) now)) q.id
        = some (applyUpdates q (pricePatch x) now)
    ∧ (q.createdAt < now →
        (applyUpdates q (pricePatch x) now).createdAt
          < (applyUpdates q (pricePatch x) now).updatedAt) := by
  refine ⟨by simp [updateProduct, hq], rfl, rfl, rfl, rfl, rfl, rfl, rfl,
    rfl, rfl, ?_, ?_⟩
  · exact getBy_putBy_self Product.id store
      (applyUpdates q (pricePatch x) now) q.id rfl
  · intro hlt; exact hlt

theorem updateProduct_price_witness :
    (applyUpdates pEx (pricePatch 7) 3).price = 7
    ∧ (applyUpdates pEx (pricePatch 7) 3).createdAt
        < (applyUpdates pEx (pricePatch 7) 3).updatedAt :=
  ⟨(updateProduct_price "a" 7 3 [pEx] pEx rfl).2.1,
   (updateProduct_price "a" 7 3 [pEx] pEx rfl).2.2.2.2.2.2.2.2.2.2.2
     (by decide)⟩

/-- C6 counterexample: the empty-string category is falsy in
JavaScript, so `listProducts({category: ""})` disables the filter and
returns products whose category is not `""`. -/
theorem listProducts_empty_category_counterexample :
    listProducts (some "") [pEx] = [pEx] ∧ pEx.category ≠ "" :=
  ⟨rfl, by decide⟩

/-- C6 amended: for every non-empty category C, `listProducts({category:
C})` returns exactly the stored products whose category equals C,
ordered by `createdAt` descending, and `listProducts()` with no filter
returns all stored products in that same order (the category listing is
the corresponding sublist of the unfiltered listing); a filter with the
empty-string category is treated as no filter. -/
theorem listProducts_spec (C : String) (hC : C ≠ "")
    (store : List Product) :
    List.Perm (listProducts (some C) store)
      (store.filter (fun p => p.category == C))
    ∧ List.Sorted prodGe (listProducts (some C) store)
    ∧ List.Perm (listProducts none store) store
    ∧ List.Sorted prodGe (listProducts none store)
    ∧ listProducts (some C) store =
        (listProducts none store).filter (fun p => p.category == C) := by
  have hfilter : store.filter (categoryPred (some C))
      = store.filter (fun p => p.category == C) :=
    List.filter_congr (fun p _ => by simp [categoryPred, hC])
  have hnone : store.filter (categoryPred none) = store := by
    rw [List.filter_eq_self]; intro a _; rfl
  refine ⟨?_, ?_, ?_, ?_, ?_⟩
  · rw [listProducts, hfilter]; exact List.perm_insertionSort prodGe _
  · exact List.sorted_insertionSort prodGe _
  · rw [listProducts, hnone]; exact List.perm_insertionSort prodGe _
  · exact List.sorted_insertionSort prodGe _
  · rw [listProducts, listProducts, hnone, hfilter, filter_insertionSort]

theorem listProducts_spec_witness :
    List.Perm (listProducts (some "Stationery") [pEx])
      (List.filter (fun p => p.category == "Stationery") [pEx])
    ∧ List.Perm (listProducts none [pEx]) [pEx] :=
  ⟨(listProducts_spec "Stationery" (by decide) [pEx]).1,
   (listProducts_spec "Stationery" (by decide) [pEx]).2.2.1⟩

/-- C8: `init` is idempotent: a second call returns the very same world
— in particular it neither duplicates nor overwrites the seeded
owner user row or the seeded `"business"` setting. -/
theorem init_idempotent (now1 now2 : Nat) (w : World) :
    init now2 (init now1 w) = init now1 w
    ∧ (init now2 (init now1 w)).db.users = (init now1 w).db.users
    ∧ lookupSetting (init now2 (init now1 w)).db.settings "business"
        = lookupSetting (init now1 w).db.settings "business" := by
  have hh : (init now1 w).handle = true := init_handle now1 w
  have hs : (getBusinessInfo (init now1 w).db).isSome := by
    simp only [init]
    exact getBusinessInfo_initSeed_isSome _
  have h1 : init now2 (init now1 w) = init now1 w := by
    calc init now2 (init now1 w)
        = initSeed (if (init now1 w).handle then init now1 w
            else openDB now2 (init now1 w)) := by simp only [init]
      _ = initSeed (init now1 w) := by rw [hh]; simp
      _ = init now1 w := initSeed_of_isSome _ hs
  exact ⟨h1, by rw [h1], by rw [h1]⟩

/-- C9: `getLogoUrl()` returns null in any state where the
`logoMediaId` setting is unset, and after any `setLogo(file)` call it
returns a non-null handle to the stored blob. -/
theorem logo_spec (db : DB) (file : JsFile) (newId : String) (now : Nat) :
    (lookupSetting db.settings "logoMediaId" = none →
      getLogoUrl db = none)
    ∧ (getLogoUrl (setLogo newId now file db).2).isSome := by
  constructor
  · intro h; simp [getLogoUrl, h]
  · have hset : lookupSetting (setLogo newId now file db).2.settings
        "logoMediaId" = some (SettingValue.str newId) := by
      simp only [setLogo, saveMedia, lookupSetting]
      rw [getBy_putBy_self Prod.fst _
        ("logoMediaId", SettingValue.str newId) "logoMediaId" rfl]
      rfl
    have hmedia : getMediaUrl newId (setLogo newId now file db).2
        = some file := by
      simp only [setLogo, saveMedia, getMediaUrl]
      rw [getBy_putBy_self MediaRecord.id _ _ newId rfl]
      rfl
    simp [getLogoUrl, hset, hmedia]

theorem logo_spec_witness :
    getLogoUrl world0.db = none
    ∧ (getLogoUrl (setLogo "m1" 3 {} world0.db).2).isSome :=
  ⟨(logo_spec world0.db {} "m1" 3).1 rfl,
   (logo_spec world0.db {} "m1" 3).2⟩

/-- C10: product ids stay unique under every products-store operation
(given they were unique before), and `addProduct` with an
already-present supplied id replaces the record in place — an upsert:
the collection keeps its size and the id now maps to the new record,
with no error (the operations are total functions). -/
theorem product_ids_unique (newId : String) (now : Nat)
    (p : ProductInput) (id : String) (u : ProductUpdates)
    (store : List Product) (h : (store.map Product.id).Nodup) :
    ((addProduct newId now p store).2.map Product.id).Nodup
    ∧ ((deleteProduct id store).map Product.id).Nodup
    ∧ (∀ r s, updateProduct id u now store = Except.ok (r, s) →
        (s.map Product.id).Nodup)
    ∧ (∀ q ∈ store, q.id = (mkProduct newId now p).id →
        (addProduct newId now p store).2.length = store.length
        ∧ findProduct (addProduct newId now p store).2 q.id
            = some (mkProduct newId now p)) := by
  refine ⟨?_, ?_, ?_, ?_⟩
  · exact nodup_map_putBy Product.id store _ h
  · exact List.Nodup.sublist
      ((List.filter_sublist store).map Product.id) h
  · intro r s hrs
    cases hf : findProduct store id with
    | none => rw [updateProduct, hf] at hrs; cases hrs
    | some ex =>
        rw [updateProduct, hf] at hrs
        have hs : s = putBy Product.id store (applyUpdates ex u now) :=
          (congrArg Prod.snd (Except.ok.inj hrs)).symm
        rw [hs]
        exact nodup_map_putBy Product.id store _ h
  · intro q hq hqid
    have hm : (mkProduct newId now p).id ∈ store.map Product.id :=
      List.mem_map.mpr ⟨q, hq, hqid⟩
    refine ⟨length_putBy_of_mem Product.id store _ hm, ?_⟩
    exact getBy_putBy_self Product.id store (mkProduct newId now p)
      q.id hqid.symm

theorem product_ids_unique_witness :
    (addProduct "fresh" 7 pInA [pEx]).2.length = 1
    ∧ findProduct (addProduct "fresh" 7 pInA [pEx]).2 pEx.id
        = some (mkProduct "fresh" 7 pInA) :=
  (product_ids_unique "fresh" 7 pInA "x" {} [pEx] (by decide)).2.2.2
    pEx (by decide) (by decide)

end VKM
